import Mathlib

/-!
Verification development for the `pipeline/rpc` client (package `rpc`):
a shallow embedding of `client.go` (the resilient RPC client: connection
establishment with retry and backoff, the retry-once-after-reconnect call
invoker, the terminal close, and the `Peer` capability wrappers) together
with the data model declared in the accompanying `rpc` package file.

Conventions of the embedding:
  * Go errors are compared by identity against the three sentinel errors
    the source mentions (`jsonrpc2.ErrClosed`, `io.ErrUnexpectedEOF`,
    `io.EOF`); every other error value is `GoError.other`.
  * The external network (websocket dial, jsonrpc2 call round-trips) is an
    oracle `Env`: the k-th dial and the k-th issued call take their outcome
    from it.  Each operation threads a dial counter `di` and a call counter
    `ci`; a dial or call attempt consumes one index, so the difference of
    the counters across an operation counts its network attempts.
  * A `nil` pointer dereference (calling through a `nil` connection) is the
    `none` result of an `Option`-valued operation.
  * Backoff sleeps are not modelled as time; only the configured duration
    value is (in nanoseconds, as Go's `time.Duration`).
-/

/-- Go error values as compared by the source: the three sentinel errors it
tests for by identity, and an opaque code for any other error value. -/
inductive GoError where
  | errClosed
  | errUnexpectedEOF
  | eof
  | other (code : Nat)
  deriving DecidableEq, Repr

/-- The external network oracle: `dialOutcome k` is the result of the k-th
websocket dial (a fresh channel handle id, or an error), and `callOutcome k`
is the result of the k-th jsonrpc2 call issued on a live connection
(`none` = success). -/
structure Env where
  dialOutcome : Nat → Except GoError Nat
  callOutcome : Nat → Option GoError

/-- Embeds the `State` struct of the rpc package (pipeline execution state). -/
structure State where
  exited : Bool
  exitCode : Int
  started : Int
  finished : Int
  error : String
  deriving DecidableEq, Repr

/-- Modelled from the spec: `Line` is defined in a file of this repository
that is not under src; the spec treats it as an opaque log record owned by
the caller and passed through unmodified, so it is one opaque field here. -/
structure Line where
  text : String
  deriving DecidableEq, Repr

/-- Embeds the `saveReq` request struct (artifact upload payload). -/
structure saveReq where
  id : String
  mime : String
  data : List Nat
  deriving DecidableEq, Repr

/-- Embeds the `updateReq` request struct. -/
structure updateReq where
  id : String
  state : State
  deriving DecidableEq, Repr

/-- Embeds the `logReq` request struct; the Go field is a `*Line` pointer,
hence `Option`. -/
structure logReq where
  id : String
  line : Option Line
  deriving DecidableEq, Repr

/-- The request payload handed to `call`, one constructor per shape the
source passes: `nil` (Next), a bare id string (Notify, and the spec's
Extend), and the three request structs. -/
inductive Req where
  | nilReq
  | strReq (id : String)
  | updateR (r : updateReq)
  | logR (r : logReq)
  | saveR (r : saveReq)
  deriving DecidableEq, Repr

/-- Embeds the `Client` struct: current connection handle (`nil`-able
pointer, so `Option`), the `done` flag, retry budget, backoff duration in
nanoseconds, and endpoint address. -/
structure Client where
  conn : Option Nat
  done : Bool
  retry : Int
  backoff : Int
  endpoint : String
  deriving DecidableEq, Repr

/-- External-world bookkeeping for connection resources: the set of channel
handles whose close has been requested. -/
structure World where
  closedChans : List Nat
  deriving DecidableEq, Repr

/-- Embeds `t.conn.Call(...)`: dereferencing a `nil` connection is the
`none` (panic) outcome; otherwise the k-th call outcome comes from the
oracle. -/
def connCall (env : Env) (t : Client) (ci : Nat) : Option (Option GoError) :=
  match t.conn with
  | none => none
  | some _ => some (env.callOutcome ci)

/-- Models `t.conn.Close()` at the spec's external boundary (the transport
library is out of scope; the spec assumes an opaque channel abstraction
whose shutdown is safe): a `nil` connection panics, otherwise the handle is
marked closed and no error is reported. -/
def connClose (conn : Option Nat) (w : World) : Option (Option GoError × World) :=
  match conn with
  | none => none
  | some ch =>
      some (none, ⟨if ch ∈ w.closedChans then w.closedChans else ch :: w.closedChans⟩)

/-- Nanoseconds in Go's `time.Second`. -/
def second : Int := 1000000000

/-- Embeds the `defaultRetryClount` constant (`math.MaxInt32`), spelled as
in the source. -/
def defaultRetryClount : Int := 2147483647

/-- Embeds the `defaultBackoff` constant (`10 * time.Second`). -/
def defaultBackoff : Int := 10 * second

/-- Embeds `Client.open` (named `openConn` because `open` is reserved in
Lean): under the lock, a set `done` flag short-circuits with `io.EOF` and
no dial; otherwise one dial is attempted (consuming one dial index), and on
success the fresh handle is installed as the current connection. -/
def Client.openConn (env : Env) (t : Client) (di : Nat) :
    Except GoError Unit × Client × Nat :=
  if t.done then (Except.error GoError.eof, t, di)
  else
    match env.dialOutcome di with
    | Except.error e => (Except.error e, t, di + 1)
    | Except.ok ch => (Except.ok (), { t with conn := some ch }, di + 1)

/-- The loop body of `Client.openRetry`, with the remaining iteration count
(`i < t.retry`) made an explicit fuel argument: success breaks out and the
function falls through to `nil`; an `io.EOF` failure returns it; any other
failure sleeps the backoff and retries. -/
def Client.openRetryLoop (env : Env) :
    Nat → Client → Nat → Except GoError Unit × Client × Nat
  | 0, t, di => (Except.ok (), t, di)
  | n + 1, t, di =>
      match Client.openConn env t di with
      | (Except.ok _, t2, di2) => (Except.ok (), t2, di2)
      | (Except.error e, t2, di2) =>
          if e = GoError.eof then (Except.error e, t2, di2)
          else Client.openRetryLoop env n t2 di2

/-- Embeds `Client.openRetry`: runs the loop for `t.retry` iterations
(`for i := 0; i < t.retry; i++`, hence `Int.toNat`); exhausting the budget
falls through to `nil`. -/
def Client.openRetry (env : Env) (t : Client) (di : Nat) :
    Except GoError Unit × Client × Nat :=
  Client.openRetryLoop env t.retry.toNat t di

/-- The observable outcome of one invocation of `Client.call`: the returned
error (`none` = success), the resulting client state, the advanced call and
dial counters, and the list of network call attempts actually issued (each
records the method name and request it carried). -/
structure CallOut where
  result : Option GoError
  client : Client
  ci : Nat
  di : Nat
  attempts : List (String × Req)
  deriving DecidableEq, Repr

/-- Embeds `Client.call`: issue the call on the current connection; on
success or on any error other than `jsonrpc2.ErrClosed` and
`io.ErrUnexpectedEOF`, return it as is; on a connectivity error, run
`openRetry` and, unless it failed, reissue the very same call once on the
then-current connection. `none` is the `nil`-connection panic. -/
def Client.call (env : Env) (t : Client) (name : String) (req : Req)
    (ci di : Nat) : Option CallOut :=
  match connCall env t ci with
  | none => none
  | some none => some ⟨none, t, ci + 1, di, [(name, req)]⟩
  | some (some e) =>
      if e ≠ GoError.errClosed ∧ e ≠ GoError.errUnexpectedEOF then
        some ⟨some e, t, ci + 1, di, [(name, req)]⟩
      else
        match Client.openRetry env t di with
        | (Except.error e2, t2, di2) =>
            some ⟨some e2, t2, ci + 1, di2, [(name, req)]⟩
        | (Except.ok _, t2, di2) =>
            match connCall env t2 (ci + 1) with
            | none => none
            | some r => some ⟨r, t2, ci + 2, di2, [(name, req), (name, req)]⟩

/-- Embeds `Client.Close`: set `done` under the lock, then close the current
connection (a `nil` connection panics inside the transport close). -/
def Client.Close (t : Client) (w : World) :
    Option (Option GoError × Client × World) :=
  match connClose { t with done := true }.conn w with
  | none => none
  | some (e, w1) => some (e, { t with done := true }, w1)

/-- Embeds `NewClient`: default configuration, then the functional options,
then an initial `openRetry`; the constructor returns the client together
with that open's error. -/
def NewClient (env : Env) (endpoint : String) (opts : List (Client → Client))
    (di : Nat) : Client × Option GoError × Nat :=
  let cli : Client :=
    opts.foldl (fun c o => o c)
      { conn := none, done := false, retry := defaultRetryClount,
        backoff := defaultBackoff, endpoint := endpoint }
  match Client.openRetry env cli di with
  | (Except.ok _, cli2, di2) => (cli2, none, di2)
  | (Except.error e, cli2, di2) => (cli2, some e, di2)

/-- Embeds the method-name constant `methodNext`. -/
def methodNext : String := "next"

/-- Embeds the method-name constant `methodNotify`. -/
def methodNotify : String := "notify"

/-- Embeds the method-name constant `methodUpdate`. -/
def methodUpdate : String := "update"

/-- Embeds the method-name constant `methodLog`. -/
def methodLog : String := "log"

/-- Embeds the method-name constant `methodSave`. -/
def methodSave : String := "save"

/-- Modelled from the spec: the `extend` method name. The repository's
`Client.Extend` implementation is not under src (only its declaration in
the `Peer` interface is); per the spec it is the named remote call
`extend`. -/
def methodExtend : String := "extend"

/-- Embeds `Client.Next` (the `context.Context` argument is unused by the
source, which calls with `context.Background()`). -/
def Client.Next (env : Env) (t : Client) (ci di : Nat) : Option CallOut :=
  Client.call env t methodNext Req.nilReq ci di

/-- Embeds `Client.Notify`. -/
def Client.Notify (env : Env) (t : Client) (id : String) (ci di : Nat) :
    Option CallOut :=
  Client.call env t methodNotify (Req.strReq id) ci di

/-- Embeds `Client.Update`. -/
def Client.Update (env : Env) (t : Client) (id : String) (st : State)
    (ci di : Nat) : Option CallOut :=
  Client.call env t methodUpdate (Req.updateR ⟨id, st⟩) ci di

/-- Embeds `Client.Log`. -/
def Client.Log (env : Env) (t : Client) (id : String) (line : Option Line)
    (ci di : Nat) : Option CallOut :=
  Client.call env t methodLog (Req.logR ⟨id, line⟩) ci di

/-- Embeds `Client.Save`: `ioutil.ReadAll` of the stream is the `Except`
argument (full payload, or a read error); a read error is returned at once
with no network attempt, otherwise one `save` call carries id, mime type
and the complete payload. -/
def Client.Save (env : Env) (t : Client) (id mime : String)
    (file : Except GoError (List Nat)) (ci di : Nat) : Option CallOut :=
  match file with
  | Except.error e => some ⟨some e, t, ci, di, []⟩
  | Except.ok data => Client.call env t methodSave (Req.saveR ⟨id, mime, data⟩) ci di

/-- Modelled from the spec: `Client.Extend` is repository code not under
src (only the `Peer` interface declares it); per the spec's capability
table it asks the server to push back the deadline by issuing the named
remote call `extend` carrying the pipeline id through the shared `call`
primitive. -/
def Client.Extend (env : Env) (t : Client) (id : String) (ci di : Nat) :
    Option CallOut :=
  Client.call env t methodExtend (Req.strReq id) ci di

/-- The shared-call-policy observation for one capability operation: at
least one and at most two network attempts were issued, all of them under
the operation's method name. -/
def issuesOnly (m : String) (out : CallOut) : Prop :=
  1 ≤ out.attempts.length ∧ out.attempts.length ≤ 2 ∧
    ∀ a ∈ out.attempts, a.1 = m

/-!
Two-caller interleaving machine for the reconnect path.

Two worker threads have each just received a connectivity error from their
first call attempt inside `Client.call` and now execute the reconnect and
replay sequence of the source: `openRetry` → `open` (acquire the mutex,
test `done`, dial, install the fresh connection as `t.conn`, release the
mutex) followed by the unguarded replay `t.conn.Call(...)`, which reads
whatever connection is current at that moment.  Dials succeed (the oracle
is benign), matching the scenario of the spec's property P6.  The machine
interleaves the two threads one atomic step at a time under an explicit
schedule.
-/

/-- The two concurrently failing callers. -/
inductive Tid where
  | A
  | B
  deriving DecidableEq, Repr

/-- Program counter of one caller inside the reconnect-and-replay path of
`Client.call`. -/
inductive Pc where
  | lockWait
  | checkDone
  | dialStep
  | install
  | unlock
  | replay
  | retOK
  | retEOF
  deriving DecidableEq, Repr

/-- Shared session state plus both callers' thread states: the mutex owner,
the `done` flag, the current connection handle, the fresh-handle allocator,
the total dial count, and per thread its program counter, the handle its
own dial produced, and the connection its replay was issued on. -/
structure Conf where
  lock : Option Tid
  done : Bool
  conn : Nat
  nextId : Nat
  dials : Nat
  pcA : Pc
  pcB : Pc
  tmpA : Nat
  tmpB : Nat
  replayA : Option Nat
  replayB : Option Nat
  deriving DecidableEq, Repr

/-- Modelled from the source reconnect path: one atomic step of caller `t`.
`lockWait` blocks until the mutex is free; `checkDone` returns `io.EOF`
(releasing the mutex) if the session is closed; `dialStep` performs the
dial (counted, fresh handle); `install` stores the handle into `t.conn`;
`unlock` releases the mutex; `replay` reissues the call on whatever
connection is current. -/
def stepConf (c : Conf) (t : Tid) : Conf :=
  match t with
  | Tid.A =>
      match c.pcA with
      | Pc.lockWait =>
          if c.lock = none then { c with lock := some Tid.A, pcA := Pc.checkDone }
          else c
      | Pc.checkDone =>
          if c.done then { c with lock := none, pcA := Pc.retEOF }
          else { c with pcA := Pc.dialStep }
      | Pc.dialStep =>
          { c with tmpA := c.nextId, nextId := c.nextId + 1,
                   dials := c.dials + 1, pcA := Pc.install }
      | Pc.install => { c with conn := c.tmpA, pcA := Pc.unlock }
      | Pc.unlock => { c with lock := none, pcA := Pc.replay }
      | Pc.replay => { c with replayA := some c.conn, pcA := Pc.retOK }
      | Pc.retOK => c
      | Pc.retEOF => c
  | Tid.B =>
      match c.pcB with
      | Pc.lockWait =>
          if c.lock = none then { c with lock := some Tid.B, pcB := Pc.checkDone }
          else c
      | Pc.checkDone =>
          if c.done then { c with lock := none, pcB := Pc.retEOF }
          else { c with pcB := Pc.dialStep }
      | Pc.dialStep =>
          { c with tmpB := c.nextId, nextId := c.nextId + 1,
                   dials := c.dials + 1, pcB := Pc.install }
      | Pc.install => { c with conn := c.tmpB, pcB := Pc.unlock }
      | Pc.unlock => { c with lock := none, pcB := Pc.replay }
      | Pc.replay => { c with replayB := some c.conn, pcB := Pc.retOK }
      | Pc.retOK => c
      | Pc.retEOF => c

/-- Run the machine under an explicit interleaving schedule. -/
def runConf (c : Conf) (sched : List Tid) : Conf :=
  sched.foldl stepConf c

/-- Initial configuration: mutex free, session live, original connection
handle 1 installed, both callers about to reconnect, no dial yet. -/
def initConf : Conf :=
  ⟨none, false, 1, 2, 0, Pc.lockWait, Pc.lockWait, 0, 0, none, none⟩

/-- How many dials a caller at this program counter has performed. -/
def dialsOf : Pc → Nat
  | Pc.install => 1
  | Pc.unlock => 1
  | Pc.replay => 1
  | Pc.retOK => 1
  | _ => 0

/-- Whether a caller at this program counter is inside the mutex-guarded
critical section of `open`. -/
def inCrit : Pc → Bool
  | Pc.checkDone => true
  | Pc.dialStep => true
  | Pc.install => true
  | Pc.unlock => true
  | _ => false

/-- The inductive invariant of the two-caller machine: the mutex owner is
exactly the caller inside the critical section, and the dial count is the
sum of the dials the two callers have performed. -/
def ConfInv (c : Conf) : Prop :=
  (c.lock = some Tid.A ↔ inCrit c.pcA = true) ∧
  (c.lock = some Tid.B ↔ inCrit c.pcB = true) ∧
  c.dials = dialsOf c.pcA + dialsOf c.pcB

/-- The schedule in which caller A runs its entire reconnect-and-replay
sequence to completion before caller B starts its own. -/
def schedAB : List Tid :=
  [Tid.A, Tid.A, Tid.A, Tid.A, Tid.A, Tid.A,
   Tid.B, Tid.B, Tid.B, Tid.B, Tid.B, Tid.B]

/-- A network oracle whose first call attempt fails with `ErrClosed` and
then succeeds, with dials succeeding. -/
def envConnFail : Env :=
  ⟨fun _ => Except.ok 7, fun k => if k = 0 then some GoError.errClosed else none⟩

/-- A network oracle whose call attempts all fail with an application-level
error. -/
def envAppFail : Env :=
  ⟨fun _ => Except.ok 7, fun _ => some (GoError.other 3)⟩

/-- A network oracle whose dials all fail with a non-terminal error. -/
def envDialFail : Env :=
  ⟨fun _ => Except.error (GoError.other 0), fun _ => none⟩

/-- A benign network oracle: every dial and every call succeeds. -/
def envAllOk : Env :=
  ⟨fun k => Except.ok (k + 2), fun _ => none⟩

/-- A connected client with a small retry budget. -/
def cli1 : Client :=
  ⟨some 1, false, 3, 10000000000, "ws"⟩

/-- A client whose connection handle was never installed. -/
def cliNil : Client :=
  ⟨none, false, 3, 10000000000, "ws"⟩

/-! ## Helper lemmas -/

/-- The retry loop never uninstalls a connection: if one was installed
before, one (possibly the same) is installed after. -/
theorem openRetryLoop_conn (env : Env) :
    ∀ (n : Nat) (t : Client) (di c : Nat), t.conn = some c →
      ∃ c2, (Client.openRetryLoop env n t di).2.1.conn = some c2 := by
  intro n
  induction n with
  | zero => intro t di c hc; exact ⟨c, hc⟩
  | succ n ih =>
    intro t di c hc
    by_cases hd : t.done
    · simp [Client.openRetryLoop, Client.openConn, hd]
      exact ⟨c, hc⟩
    · cases hdo : env.dialOutcome di with
      | error e =>
        by_cases he : e = GoError.eof
        · simp [Client.openRetryLoop, Client.openConn, hd, hdo, he]
          exact ⟨c, hc⟩
        · simp [Client.openRetryLoop, Client.openConn, hd, hdo, he]
          exact ih t (di + 1) c hc
      | ok ch =>
        simp [Client.openRetryLoop, Client.openConn, hd, hdo]

/-- Every `some` result of `Client.call` issued between one and two network
attempts, all carrying the given method name and request. -/
theorem call_attempts (env : Env) (t : Client) (name : String) (req : Req)
    (ci di : Nat) (out : CallOut)
    (h : Client.call env t name req ci di = some out) :
    1 ≤ out.attempts.length ∧ out.attempts.length ≤ 2 ∧
      ∀ a ∈ out.attempts, a = (name, req) := by
  unfold Client.call at h
  split at h
  · exact Option.noConfusion h
  · injection h with h
    subst h
    simp
  · split at h
    · injection h with h
      subst h
      simp
    · split at h
      · injection h with h
        subst h
        simp
      · split at h
        · exact Option.noConfusion h
        · injection h with h
          subst h
          simp

/-- When the retry budget allows at least one attempt, the session is live
and the first dial succeeds, `openRetry` installs the dialed handle and
stops after that single dial. -/
theorem openRetry_first_dial_ok (env : Env) (t : Client) (di : Nat) (ch : Nat)
    (hone : 1 ≤ t.retry) (hdone : t.done = false)
    (hd : env.dialOutcome di = Except.ok ch) :
    Client.openRetry env t di =
      (Except.ok (), { t with conn := some ch }, di + 1) := by
  obtain ⟨n, hn⟩ : ∃ n, t.retry.toNat = n + 1 := ⟨t.retry.toNat - 1, by omega⟩
  unfold Client.openRetry
  rw [hn]
  simp [Client.openRetryLoop, Client.openConn, hdone, hd]

/-- If the session is live and every dial fails with a non-`io.EOF` error,
the retry loop runs through its whole fuel and falls through to success. -/
theorem openRetryLoop_all_fail (env : Env) (t : Client)
    (hdone : t.done = false)
    (hfail : ∀ k, ∃ e, env.dialOutcome k = Except.error e ∧ e ≠ GoError.eof) :
    ∀ (n di : Nat), Client.openRetryLoop env n t di = (Except.ok (), t, di + n) := by
  intro n
  induction n with
  | zero => intro di; simp [Client.openRetryLoop]
  | succ n ih =>
    intro di
    obtain ⟨e, he, hne⟩ := hfail di
    simp [Client.openRetryLoop, Client.openConn, hdone, he, hne]
    rw [ih (di + 1)]
    simp
    omega

/-- Unfolds `NewClient` through a successful constructor-time `openRetry`. -/
theorem NewClient_openRetry_ok (env : Env) (ep : String)
    (opts : List (Client → Client)) (di : Nat) (cli2 : Client) (di2 : Nat)
    (h : Client.openRetry env
      (opts.foldl (fun c o => o c)
        { conn := none, done := false, retry := defaultRetryClount,
          backoff := defaultBackoff, endpoint := ep }) di =
      (Except.ok (), cli2, di2)) :
    NewClient env ep opts di = (cli2, none, di2) := by
  simp only [NewClient]
  rw [h]

/-! ## Claim theorems -/

/-- C1: a call failing with a connectivity-class error (`ErrClosed` or
`ErrUnexpectedEOF`) causes at most two network attempts in total — the
original and, when the reconnect reports success, exactly one replay whose
outcome (success or any error whatsoever) is returned with no further
retry; when the reconnect itself fails, its error is returned after the
single original attempt. -/
theorem call_retries_once (env : Env) (t : Client) (name : String) (req : Req)
    (ci di : Nat) (c : Nat) (e : GoError) (hc : t.conn = some c)
    (he : env.callOutcome ci = some e)
    (hcls : e = GoError.errClosed ∨ e = GoError.errUnexpectedEOF) :
    ∃ out, Client.call env t name req ci di = some out ∧
      out.attempts.length ≤ 2 ∧
      ((∃ e2 t2 di2, Client.openRetry env t di = (Except.error e2, t2, di2) ∧
          out.result = some e2 ∧ out.attempts.length = 1) ∨
       (∃ t2 di2, Client.openRetry env t di = (Except.ok (), t2, di2) ∧
          out.result = env.callOutcome (ci + 1) ∧ out.attempts.length = 2)) := by
  rcases hor : Client.openRetry env t di with ⟨res, t2, di2⟩
  cases res with
  | error e2 =>
    refine ⟨⟨some e2, t2, ci + 1, di2, [(name, req)]⟩, ?_, by simp,
      Or.inl ⟨e2, t2, di2, rfl, rfl, by simp⟩⟩
    rcases hcls with rfl | rfl <;>
      simp [Client.call, connCall, hc, he, hor]
  | ok u =>
    cases u
    obtain ⟨c2, hc2⟩ := openRetryLoop_conn env t.retry.toNat t di c hc
    have hc2' : t2.conn = some c2 := by
      have h2 : (Client.openRetry env t di).2.1.conn = some c2 := hc2
      rw [hor] at h2
      exact h2
    refine ⟨⟨env.callOutcome (ci + 1), t2, ci + 2, di2, [(name, req), (name, req)]⟩,
      ?_, by simp, Or.inr ⟨t2, di2, rfl, rfl, by simp⟩⟩
    rcases hcls with rfl | rfl <;>
      simp [Client.call, connCall, hc, he, hor, hc2']

/-- C2: a call failing with any non-connectivity error makes exactly one
network attempt, triggers no reconnect (state and dial counter unchanged),
and returns that error unchanged. -/
theorem call_no_retry_on_app_error (env : Env) (t : Client) (name : String)
    (req : Req) (ci di : Nat) (c : Nat) (e : GoError)
    (hc : t.conn = some c) (he : env.callOutcome ci = some e)
    (h1 : e ≠ GoError.errClosed) (h2 : e ≠ GoError.errUnexpectedEOF) :
    Client.call env t name req ci di =
      some ⟨some e, t, ci + 1, di, [(name, req)]⟩ := by
  simp [Client.call, connCall, hc, he, h1, h2]

/-- C3: once `Close` has run, every direct establish attempt returns the
terminal `io.EOF` immediately with no dial and no state change, and the
retry loop (whenever its budget admits at least one attempt) stops at once
with that same terminal error instead of backing off and retrying. -/
theorem close_absorbing (t0 : Client) (w : World) (e : Option GoError)
    (t1 : Client) (w1 : World) (env : Env) (di : Nat)
    (h : Client.Close t0 w = some (e, t1, w1)) :
    Client.openConn env t1 di = (Except.error GoError.eof, t1, di) ∧
    (1 ≤ t1.retry → Client.openRetry env t1 di = (Except.error GoError.eof, t1, di)) := by
  have hdone : t1.done = true := by
    cases hc0 : t0.conn with
    | none => simp [Client.Close, connClose, hc0] at h
    | some ch =>
      simp [Client.Close, connClose, hc0] at h
      obtain ⟨-, h2, -⟩ := h
      rw [← h2]
  constructor
  · simp [Client.openConn, hdone]
  · intro hr
    obtain ⟨n, hn⟩ : ∃ n, t1.retry.toNat = n + 1 := ⟨t1.retry.toNat - 1, by omega⟩
    unfold Client.openRetry
    rw [hn]
    simp [Client.openRetryLoop, Client.openConn, hdone]

/-- C4: with a live session and only non-terminal dial failures, exhausting
the whole retry budget makes `openRetry` fall through to success (no
retry-exhausted error), leaving the client unchanged; with a budget of zero
or less it succeeds without a single dial. -/
theorem openRetry_exhaust_success (env : Env) (t : Client) (di : Nat)
    (hdone : t.done = false)
    (hfail : ∀ k, ∃ e, env.dialOutcome k = Except.error e ∧ e ≠ GoError.eof) :
    Client.openRetry env t di = (Except.ok (), t, di + t.retry.toNat) ∧
    (t.retry ≤ 0 → Client.openRetry env t di = (Except.ok (), t, di)) := by
  have h := openRetryLoop_all_fail env t hdone hfail t.retry.toNat di
  constructor
  · exact h
  · intro h0
    have hz : t.retry.toNat = 0 := by omega
    unfold Client.openRetry
    rw [hz]
    simp [Client.openRetryLoop]

/-- C5: closing twice yields the same observable state as closing once, and
the second close reports no error. -/
theorem close_idempotent (t : Client) (w : World) (c : Nat)
    (hc : t.conn = some c) :
    ∃ t1 w1, Client.Close t w = some (none, t1, w1) ∧
      Client.Close t1 w1 = some (none, t1, w1) := by
  refine ⟨{ t with done := true },
    ⟨if c ∈ w.closedChans then w.closedChans else c :: w.closedChans⟩, ?_, ?_⟩
  · simp [Client.Close, connClose, hc]
  · have hmem : c ∈ (if c ∈ w.closedChans then w.closedChans
        else c :: w.closedChans) := by
      by_cases hm : c ∈ w.closedChans
      · simp only [if_pos hm]
        exact hm
      · simp only [if_neg hm]
        exact List.mem_cons_self c w.closedChans
    simp [Client.Close, connClose, hc, hmem]

/-- C6: the concrete client covers the whole `Peer` capability surface —
`next`, `notify`, `extend` (deadline extension), `update`, `log`, `save` —
and every capability operation goes through the shared `call` primitive
under its own method name, hence inherits the shared retry-once policy
(between one and two attempts, all named after the operation). -/
theorem peer_surface_via_call (env : Env) (t : Client) :
    (methodNext = "next" ∧ methodNotify = "notify" ∧ methodExtend = "extend" ∧
     methodUpdate = "update" ∧ methodLog = "log" ∧ methodSave = "save") ∧
    (∀ ci di out, Client.Next env t ci di = some out →
        issuesOnly methodNext out) ∧
    (∀ id ci di out, Client.Notify env t id ci di = some out →
        issuesOnly methodNotify out) ∧
    (∀ id ci di out, Client.Extend env t id ci di = some out →
        issuesOnly methodExtend out) ∧
    (∀ id st ci di out, Client.Update env t id st ci di = some out →
        issuesOnly methodUpdate out) ∧
    (∀ id line ci di out, Client.Log env t id line ci di = some out →
        issuesOnly methodLog out) ∧
    (∀ id mime data ci di out,
        Client.Save env t id mime (Except.ok data) ci di = some out →
          issuesOnly methodSave out) := by
  have base : ∀ (name : String) (req : Req) (ci di : Nat) (out : CallOut),
      Client.call env t name req ci di = some out → issuesOnly name out := by
    intro name req ci di out h
    obtain ⟨h1, h2, h3⟩ := call_attempts env t name req ci di out h
    exact ⟨h1, h2, fun a ha => by rw [h3 a ha]⟩
  refine ⟨⟨rfl, rfl, rfl, rfl, rfl, rfl⟩, ?_, ?_, ?_, ?_, ?_, ?_⟩
  · exact fun ci di out h => base methodNext Req.nilReq ci di out h
  · exact fun id ci di out h => base methodNotify (Req.strReq id) ci di out h
  · exact fun id ci di out h => base methodExtend (Req.strReq id) ci di out h
  · exact fun id st ci di out h =>
      base methodUpdate (Req.updateR ⟨id, st⟩) ci di out h
  · exact fun id line ci di out h =>
      base methodLog (Req.logR ⟨id, line⟩) ci di out h
  · exact fun id mime data ci di out h =>
      base methodSave (Req.saveR ⟨id, mime, data⟩) ci di out h

/-- C7: `Save` reads the whole stream before any network activity — a read
failure is returned with zero network attempts and no state change — and a
successful read leads to one `save` call (one to two attempts under the
shared policy) carrying the id, the mime type and the complete payload. -/
theorem save_buffers_before_call (env : Env) (t : Client) (id mime : String) :
    (∀ (e : GoError) (ci di : Nat),
        Client.Save env t id mime (Except.error e) ci di =
          some ⟨some e, t, ci, di, []⟩) ∧
    (∀ (data : List Nat) (ci di : Nat) (out : CallOut),
        Client.Save env t id mime (Except.ok data) ci di = some out →
          1 ≤ out.attempts.length ∧ out.attempts.length ≤ 2 ∧
          ∀ a ∈ out.attempts, a = (methodSave, Req.saveR ⟨id, mime, data⟩)) := by
  constructor
  · intro e ci di
    rfl
  · intro data ci di out h
    exact call_attempts env t methodSave (Req.saveR ⟨id, mime, data⟩) ci di out h

/-- C8: a client constructed without options carries the default retry
budget `math.MaxInt32 = 2 ^ 31 - 1` and the default backoff of exactly
10 seconds (in nanoseconds), and construction itself runs the initial
connect-with-retry: when the first dial succeeds it installs that channel,
having consumed exactly one dial. -/
theorem newClient_defaults (env : Env) (ep : String) (di : Nat) (ch : Nat)
    (hd : env.dialOutcome di = Except.ok ch) :
    defaultRetryClount = 2 ^ 31 - 1 ∧ defaultBackoff = 10 * 1000000000 ∧
    NewClient env ep [] di =
      ({ conn := some ch, done := false, retry := defaultRetryClount,
         backoff := defaultBackoff, endpoint := ep }, none, di + 1) := by
  refine ⟨by norm_num [defaultRetryClount], by norm_num [defaultBackoff, second], ?_⟩
  have hbase := openRetry_first_dial_ok env
    { conn := none, done := false, retry := defaultRetryClount,
      backoff := defaultBackoff, endpoint := ep } di ch
    (by norm_num [defaultRetryClount]) rfl hd
  exact NewClient_openRetry_ok env ep [] di _ _ hbase

/-- C10: `Close` and `call` are only total when an establish has succeeded:
on a client whose connection handle was never installed both dereference
the `nil` handle (the panic outcome) instead of returning an error — and
such a client is reachable, e.g. through construction with a retry budget
of zero, which reports success without dialing. -/
theorem nil_conn_panics :
    (∀ (t : Client) (w : World), t.conn = none → Client.Close t w = none) ∧
    (∀ (env : Env) (t : Client) (name : String) (req : Req) (ci di : Nat),
        t.conn = none → Client.call env t name req ci di = none) ∧
    (∀ (env : Env) (ep : String) (di : Nat),
        NewClient env ep [fun c => { c with retry := 0 }] di =
          ({ conn := none, done := false, retry := 0,
             backoff := defaultBackoff, endpoint := ep }, none, di)) := by
  refine ⟨?_, ?_, ?_⟩
  · intro t w hc
    simp [Client.Close, connClose, hc]
  · intro env t name req ci di hc
    simp [Client.call, connCall, hc]
  · intro env ep di
    rfl

/-- One step of either caller preserves the two-caller invariant. -/
theorem confInv_step (c : Conf) (t : Tid) (h : ConfInv c) :
    ConfInv (stepConf c t) := by
  obtain ⟨h1, h2, h3⟩ := h
  cases t with
  | A =>
    cases hpc : c.pcA <;>
      rcases hlk : c.lock with - | (- | -) <;>
        cases hdn : c.done <;>
          simp_all [stepConf, ConfInv, inCrit, dialsOf] <;>
            try omega
  | B =>
    cases hpc : c.pcB <;>
      rcases hlk : c.lock with - | (- | -) <;>
        cases hdn : c.done <;>
          simp_all [stepConf, ConfInv, inCrit, dialsOf]

/-- Runs from an invariant state stay in the invariant. -/
theorem confInv_run (sched : List Tid) :
    ∀ c : Conf, ConfInv c → ConfInv (runConf c sched) := by
  induction sched with
  | nil => intro c h; exact h
  | cons s rest ih =>
    intro c h
    exact ih (stepConf c s) (confInv_step c s h)

/-- C9 (counterexample): under the schedule where caller A finishes its
whole reconnect-and-replay before caller B starts, both concurrently
failed calls complete, yet two reconnect dials are performed — not
exactly one — and the two replays observe different channels. -/
theorem reconnect_not_single_or_shared :
    (runConf initConf schedAB).pcA = Pc.retOK ∧
    (runConf initConf schedAB).pcB = Pc.retOK ∧
    ¬((runConf initConf schedAB).dials = 1) ∧
    (runConf initConf schedAB).replayA ≠ (runConf initConf schedAB).replayB := by
  decide

/-- C9 (amended): when two calls concurrently hit a connectivity error,
the reconnect critical sections are mutually exclusive — under no schedule
are both callers inside the lock-guarded dial-and-install section at once —
but each failing call performs its own reconnect: any schedule under which
both calls complete has performed exactly two dials, one per call, rather
than a single shared reconnect. -/
theorem reconnect_serialized_two_dials (sched : List Tid) :
    ¬(inCrit (runConf initConf sched).pcA = true ∧
      inCrit (runConf initConf sched).pcB = true) ∧
    ((runConf initConf sched).pcA = Pc.retOK →
      (runConf initConf sched).pcB = Pc.retOK →
      (runConf initConf sched).dials = 2) := by
  obtain ⟨h1, h2, h3⟩ := confInv_run sched initConf ⟨by decide, by decide, by decide⟩
  constructor
  · rintro ⟨ha, hb⟩
    have hA := h1.mpr ha
    have hB := h2.mpr hb
    rw [hA] at hB
    exact absurd hB (by decide)
  · intro ha hb
    rw [ha, hb] at h3
    simpa [dialsOf] using h3

/-! ## Witnesses -/

/-- Witness for C1 at a concrete oracle: first attempt fails with
`ErrClosed`, the reconnect dial succeeds, the replay succeeds. -/
theorem call_retries_once_witness :
    ∃ out, Client.call envConnFail cli1 methodNext Req.nilReq 0 0 = some out ∧
      out.attempts.length ≤ 2 ∧
      ((∃ e2 t2 di2, Client.openRetry envConnFail cli1 0 =
            (Except.error e2, t2, di2) ∧
          out.result = some e2 ∧ out.attempts.length = 1) ∨
       (∃ t2 di2, Client.openRetry envConnFail cli1 0 =
            (Except.ok (), t2, di2) ∧
          out.result = envConnFail.callOutcome (0 + 1) ∧
          out.attempts.length = 2)) :=
  call_retries_once envConnFail cli1 methodNext Req.nilReq 0 0 1
    GoError.errClosed rfl rfl (Or.inl rfl)

/-- Witness for C2 at a concrete oracle: an application error passes
through after a single attempt. -/
theorem call_no_retry_on_app_error_witness :
    Client.call envAppFail cli1 methodNext Req.nilReq 0 0 =
      some ⟨some (GoError.other 3), cli1, 0 + 1, 0, [(methodNext, Req.nilReq)]⟩ :=
  call_no_retry_on_app_error envAppFail cli1 methodNext Req.nilReq 0 0 1
    (GoError.other 3) rfl rfl (by decide) (by decide)

/-- Witness for C3 at a concrete close: after closing `cli1`, establish
fails terminally with no dial, directly and through the retry loop. -/
theorem close_absorbing_witness :
    Client.openConn envAllOk { cli1 with done := true } 5 =
      (Except.error GoError.eof, { cli1 with done := true }, 5) ∧
    (1 ≤ ({ cli1 with done := true } : Client).retry →
      Client.openRetry envAllOk { cli1 with done := true } 5 =
        (Except.error GoError.eof, { cli1 with done := true }, 5)) :=
  close_absorbing cli1 ⟨[]⟩ none { cli1 with done := true } ⟨[1]⟩ envAllOk 5 rfl

/-- Witness for C4 at a concrete oracle whose dials all fail: the budget of
3 is exhausted and `openRetry` reports success. -/
theorem openRetry_exhaust_success_witness :
    Client.openRetry envDialFail cli1 0 =
      (Except.ok (), cli1, 0 + cli1.retry.toNat) ∧
    (cli1.retry ≤ 0 →
      Client.openRetry envDialFail cli1 0 = (Except.ok (), cli1, 0)) :=
  openRetry_exhaust_success envDialFail cli1 0 rfl
    (fun _ => ⟨GoError.other 0, rfl, by decide⟩)

/-- Witness for C5: closing `cli1` twice returns no error the second time
and leaves the state of the first close unchanged. -/
theorem close_idempotent_witness :
    ∃ t1 w1, Client.Close cli1 ⟨[]⟩ = some (none, t1, w1) ∧
      Client.Close t1 w1 = some (none, t1, w1) :=
  close_idempotent cli1 ⟨[]⟩ 1 rfl

/-- Witness for C6: concrete runs of `Next` and of the spec-modelled
`Extend` each issue one attempt under their own method name. -/
theorem peer_surface_via_call_witness :
    issuesOnly methodNext ⟨none, cli1, 0 + 1, 0, [(methodNext, Req.nilReq)]⟩ ∧
    issuesOnly methodExtend
      ⟨none, cli1, 0 + 1, 0, [(methodExtend, Req.strReq ("p1"))]⟩ :=
  ⟨(peer_surface_via_call envAllOk cli1).2.1 0 0
      ⟨none, cli1, 0 + 1, 0, [(methodNext, Req.nilReq)]⟩ rfl,
   (peer_surface_via_call envAllOk cli1).2.2.2.1 ("p1") 0 0
      ⟨none, cli1, 0 + 1, 0, [(methodExtend, Req.strReq ("p1"))]⟩ rfl⟩

/-- Witness for C7: a concrete failed read returns the read error with no
attempt, and a concrete successful upload issues one full-payload attempt. -/
theorem save_buffers_before_call_witness :
    (Client.Save envAllOk cli1 ("a") ("b") (Except.error (GoError.other 7)) 4 5 =
      some ⟨some (GoError.other 7), cli1, 4, 5, []⟩) ∧
    (1 ≤ ([(methodSave, Req.saveR ⟨"a", "b", [1, 2]⟩)] : List (String × Req)).length ∧
     ([(methodSave, Req.saveR ⟨"a", "b", [1, 2]⟩)] : List (String × Req)).length ≤ 2 ∧
     ∀ a ∈ ([(methodSave, Req.saveR ⟨"a", "b", [1, 2]⟩)] : List (String × Req)),
       a = (methodSave, Req.saveR ⟨"a", "b", [1, 2]⟩)) :=
  ⟨(save_buffers_before_call envAllOk cli1 ("a") ("b")).1 (GoError.other 7) 4 5,
   (save_buffers_before_call envAllOk cli1 ("a") ("b")).2 [1, 2] 0 0
      ⟨none, cli1, 0 + 1, 0, [(methodSave, Req.saveR ⟨"a", "b", [1, 2]⟩)]⟩ rfl⟩

/-- Witness for C8 at a concrete oracle: construction with no options and a
first dial that succeeds installs channel 5 after exactly one dial. -/
theorem newClient_defaults_witness :
    defaultRetryClount = 2 ^ 31 - 1 ∧ defaultBackoff = 10 * 1000000000 ∧
    NewClient envAllOk ("ep") [] 3 =
      ({ conn := some (3 + 2), done := false, retry := defaultRetryClount,
         backoff := defaultBackoff, endpoint := "ep" }, none, 3 + 1) :=
  newClient_defaults envAllOk ("ep") 3 (3 + 2) rfl

/-- Witness for C10: both panic outcomes at the never-connected client, and
the zero-budget construction path that produces it without error. -/
theorem nil_conn_panics_witness :
    Client.Close cliNil ⟨[]⟩ = none ∧
    Client.call envAllOk cliNil methodNext Req.nilReq 0 0 = none ∧
    NewClient envAllOk ("e2") [fun c => { c with retry := 0 }] 4 =
      ({ conn := none, done := false, retry := 0,
         backoff := defaultBackoff, endpoint := "e2" }, none, 4) :=
  ⟨nil_conn_panics.1 cliNil ⟨[]⟩ rfl,
   nil_conn_panics.2.1 envAllOk cliNil methodNext Req.nilReq 0 0 rfl,
   nil_conn_panics.2.2 envAllOk ("e2") 4⟩

/-- Witness for the amended C9 at the concrete completed schedule: mutual
exclusion holds and exactly two dials were performed. -/
theorem reconnect_serialized_two_dials_witness :
    ¬(inCrit (runConf initConf schedAB).pcA = true ∧
      inCrit (runConf initConf schedAB).pcB = true) ∧
    (runConf initConf schedAB).dials = 2 :=
  ⟨(reconnect_serialized_two_dials schedAB).1,
   (reconnect_serialized_two_dials schedAB).2 (by decide) (by decide)⟩
